/-
  Verification of FengDock (personal dashboard backend) against its
  natural-language specification.

  Shallow embedding of the relevant source files:
    app/loblaws.py   (watch refresh pipeline: offer selection, signature,
                      notification policy, snapshot application)
    app/crud.py      (link listing order, mind-map document update)
    app/routers/mindmaps.py (optimistic-concurrency update endpoint)
    app/auth.py      (shared-secret gate, SHA-256)

  Conventions of the embedding:
  * Python `None`-able values are `Option`; Python string truthiness
    (`x or y`, `if x:`) is modelled by `strTruthy` / `strOr`.
  * JSON numbers (prices) are modelled as `Rat`; Python float `%.2f`
    formatting is modelled as exact half-even rounding to cents.
  * Wall-clock instants handed to a refresh run are abstract `Nat` ticks.
  * datetimes parsed from upstream expiry strings are modelled as UTC
    instants (`UTCTime`), with civil-calendar arithmetic done exactly;
    the retailer timezone (`America/Toronto`) is modelled as its fixed
    standard-time offset (DST transitions are elided; no claim below
    depends on the numeric offset).
-/
import Mathlib

namespace FengDock

/-! ### Python string-truthiness helpers -/

/-- Truthiness of an optional Python string: `None` and `""` are falsy. -/
def strTruthy : Option String → Bool
  | none => false
  | some s => s ≠ ""

/-- Python `a or b` for optional strings. -/
def strOr (a b : Option String) : Option String :=
  if strTruthy a then a else b

/-- Python `a or dflt` where the result is used as a plain string. -/
def strOrDefault (a : Option String) (dflt : String) : String :=
  match a with
  | none => dflt
  | some s => if s = "" then dflt else s

/-- Characters stripped by Python `str.strip()` (whitespace). -/
def stripList (l : List Char) : List Char :=
  ((l.dropWhile Char.isWhitespace).reverse.dropWhile Char.isWhitespace).reverse

/-- Python `str.strip()`. -/
def stripStr (s : String) : String := String.mk (stripList s.data)

/-- ASCII lower-casing of a string, as Python `str.lower()` on the
    ASCII inputs in scope. -/
def lowerStr (s : String) : String := String.mk (s.data.map Char.toLower)

/-- Python `str.title()` (ASCII): upper-case a letter that follows a
    non-letter, lower-case a letter that follows a letter. -/
def titleStr (s : String) : String :=
  String.mk ((s.data.foldl
    (fun (acc : List Char × Bool) c =>
      if c.isAlpha then
        (acc.1 ++ [if acc.2 then c.toLower else c.toUpper], true)
      else
        (acc.1 ++ [c], false))
    ([], false)).1)

/-! ### Decimal rendering helpers -/

/-- Render a natural number left-padded with zeros to `width` digits. -/
def padNat (width : Nat) (n : Nat) : String :=
  let s := toString n
  if s.length < width then String.mk (List.replicate (width - s.length) '0') ++ s else s

/-- Round a rational to the nearest integer, ties to even
    (the rounding used by Python float formatting, modelled exactly). -/
def roundHalfEven (q : Rat) : Int :=
  let n := q.floor
  let r := q - (n : Rat)
  if r < (1 : Rat) / 2 then n
  else if (1 : Rat) / 2 < r then n + 1
  else if n % 2 = 0 then n else n + 1

/-- Python `f"{x:.2f}"`, modelled as exact half-even rounding of a
    rational to cents (a float `-0.004` would render `"-0.00"` in
    Python; the model renders `"0.00"`; no claim depends on this). -/
def format2 (q : Rat) : String :=
  let c := roundHalfEven (q * 100)
  let a := c.natAbs
  (if c < 0 then "-" else "") ++ toString (a / 100) ++ "." ++ padNat 2 (a % 100)

/-! ### Civil-calendar arithmetic (exact, Howard-Hinnant style)

All divisions below are applied to non-negative operands (years are
validated to `1..9999` by the parser before use), where every integer
division convention agrees. -/

/-- Days from civil date (proleptic Gregorian) to days since 1970-01-01. -/
def daysFromCivil (y m d : Int) : Int :=
  let y1 := y - (if m ≤ 2 then 1 else 0)
  let era := y1 / 400
  let yoe := y1 - era * 400
  let doy := (153 * (m + (if 2 < m then -3 else 9)) + 2) / 5 + d - 1
  let doe := yoe * 365 + yoe / 4 - yoe / 100 + doy
  era * 146097 + doe - 719468

/-- Civil date `(year, month, day)` from days since 1970-01-01. -/
def civilFromDays (z0 : Int) : Int × Int × Int :=
  let z := z0 + 719468
  let era := (if 0 ≤ z then z else z - 146096) / 146097
  let doe := z - era * 146097
  let yoe := (doe - doe / 1460 + doe / 36524 - doe / 146096) / 365
  let y := yoe + era * 400
  let doy := doe - (365 * yoe + yoe / 4 - yoe / 100)
  let mp := (5 * doy + 2) / 153
  let d := doy - (153 * mp + 2) / 5 + 1
  let m := mp + (if mp < 10 then 3 else -9)
  (y + (if m ≤ 2 then 1 else 0), m, d)

/-- Whether `y` is a Gregorian leap year. -/
def isLeapYear (y : Nat) : Bool :=
  (y % 4 = 0 && y % 100 ≠ 0) || y % 400 = 0

/-- Days in a month (0 for an invalid month number). -/
def daysInMonth (y m : Nat) : Nat :=
  if m = 1 ∨ m = 3 ∨ m = 5 ∨ m = 7 ∨ m = 8 ∨ m = 10 ∨ m = 12 then 31
  else if m = 4 ∨ m = 6 ∨ m = 9 ∨ m = 11 then 30
  else if m = 2 then (if isLeapYear y then 29 else 28)
  else 0

/-- UTC instant with microsecond precision, as produced by
    `_parse_expiry` (a timezone-aware `datetime` converted to UTC). -/
structure UTCTime where
  secs : Int
  micros : Nat
deriving DecidableEq, Repr

/-- Python `datetime.isoformat()` of a UTC-aware datetime:
    `YYYY-MM-DDTHH:MM:SS[.ffffff]+00:00`, microseconds printed only
    when non-zero. -/
def isoformatUTC (t : UTCTime) : String :=
  let days := t.secs.ediv 86400
  let sod := (t.secs.emod 86400).toNat
  let c := civilFromDays days
  padNat 4 c.1.toNat ++ "-" ++ padNat 2 c.2.1.toNat ++ "-" ++ padNat 2 c.2.2.toNat ++
    "T" ++ padNat 2 (sod / 3600) ++ ":" ++ padNat 2 (sod % 3600 / 60) ++ ":" ++
    padNat 2 (sod % 60) ++
    (if t.micros = 0 then "" else "." ++ padNat 6 t.micros) ++ "+00:00"

/-- Fixed standard-time offset of `America/Toronto` in minutes
    (DST elided by the model; no claim depends on the value). -/
def torontoOffsetMinutes : Int := -300

/-- Render `strftime("%Y-%m-%d")` of a UTC instant viewed in the
    retailer's local timezone. -/
def localDateString (t : UTCTime) : String :=
  let localSecs := t.secs + torontoOffsetMinutes * 60
  let c := civilFromDays (localSecs.ediv 86400)
  padNat 4 c.1.toNat ++ "-" ++ padNat 2 c.2.1.toNat ++ "-" ++ padNat 2 c.2.2.toNat

/-! ### `datetime.fromisoformat` model

The parser accepts the canonical ISO-8601 forms the upstream payloads
use: `YYYY-MM-DD`, optionally followed by `T` or a space and
`HH:MM[:SS[.ffffff]]`, optionally followed by a `±HH:MM` offset
(the `Z` suffix is rewritten to `+00:00` by `_parse_expiry` before
parsing, as in the source). Out-of-range components are rejected,
matching `datetime`'s `ValueError` behaviour. -/

/-- Components of a parsed (possibly timezone-naive) datetime. -/
structure DateTimeParts where
  year : Nat
  month : Nat
  day : Nat
  hour : Nat
  minute : Nat
  second : Nat
  micros : Nat
  offsetMinutes : Option Int
deriving DecidableEq, Repr

/-- Parse exactly `n` digits; return their value and the rest. -/
def parseDigits (n : Nat) (l : List Char) : Option (Nat × List Char) :=
  let pre := l.take n
  if pre.length = n ∧ pre.all Char.isDigit then
    some (pre.foldl (fun a c => a * 10 + (c.toNat - 48)) 0, l.drop n)
  else none

/-- Expect a single literal character. -/
def parseLit (c : Char) (l : List Char) : Option (List Char) :=
  match l with
  | x :: rest => if x = c then some rest else none
  | [] => none

/-- Parse a `±HH:MM` timezone offset ending the input. -/
def parseOffset (l : List Char) : Option Int :=
  match l with
  | sign :: rest =>
    if sign = '+' ∨ sign = '-' then do
      let (hh, r1) ← parseDigits 2 rest
      let r2 ← parseLit ':' r1
      let (mm, r3) ← parseDigits 2 r2
      if r3 = [] ∧ hh < 24 ∧ mm < 60 then
        let a : Int := hh * 60 + mm
        some (if sign = '-' then -a else a)
      else none
    else none
  | [] => none

/-- Parse the `[.ffffff]` fraction (1 to 6 digits) into microseconds,
    returning the remaining input. -/
def parseFraction (l : List Char) : Option (Nat × List Char) :=
  match l with
  | '.' :: rest =>
    let digs := rest.takeWhile Char.isDigit
    if 1 ≤ digs.length ∧ digs.length ≤ 6 then
      let v := digs.foldl (fun a c => a * 10 + (c.toNat - 48)) 0
      some (v * 10 ^ (6 - digs.length), rest.drop digs.length)
    else none
  | _ => some (0, l)

/-- Parse the time-of-day (and optional offset) part. -/
def parseTimePart (l : List Char) : Option (Nat × Nat × Nat × Nat × Option Int) := do
  let (hh, r1) ← parseDigits 2 l
  let r2 ← parseLit ':' r1
  let (mi, r3) ← parseDigits 2 r2
  let (ss, micros, r6) ←
    match parseLit ':' r3 with
    | some r4 => do
      let (ss, r5) ← parseDigits 2 r4
      let (micros, r6) ← parseFraction r5
      pure (ss, micros, r6)
    | none => pure (0, 0, r3)
  let off ←
    match r6 with
    | [] => pure (none : Option Int)
    | rest => (parseOffset rest).map some
  if hh < 24 ∧ mi < 60 ∧ ss < 60 then
    some (hh, mi, ss, micros, off)
  else none

/-- Model of `datetime.fromisoformat` on the grammar above;
    `none` models a raised `ValueError`. -/
def fromisoformat (l : List Char) : Option DateTimeParts := do
  let (y, r1) ← parseDigits 4 l
  let r2 ← parseLit '-' r1
  let (m, r3) ← parseDigits 2 r2
  let r4 ← parseLit '-' r3
  let (d, r5) ← parseDigits 2 r4
  let core ←
    match r5 with
    | [] => pure (0, 0, 0, 0, (none : Option Int))
    | sep :: rest =>
      if sep = 'T' ∨ sep = ' ' then parseTimePart rest else none
  if 1 ≤ y ∧ 1 ≤ m ∧ m ≤ 12 ∧ 1 ≤ d ∧ d ≤ daysInMonth y m then
    some ⟨y, m, d, core.1, core.2.1, core.2.2.1, core.2.2.2.1, core.2.2.2.2⟩
  else none

/-- Convert parsed components to a UTC instant; a naive datetime is
    first given the retailer's local offset, as
    `dt.replace(tzinfo=TORONTO_TZ)` followed by
    `dt.astimezone(timezone.utc)` in the source. -/
def partsToUTC (p : DateTimeParts) : UTCTime :=
  let off := p.offsetMinutes.getD torontoOffsetMinutes
  { secs := daysFromCivil p.year p.month p.day * 86400 +
      (p.hour * 3600 + p.minute * 60 + p.second : Nat) - off * 60
    micros := p.micros }

/-- Embedding of `_parse_expiry` (loblaws.py:178): trim, reject empty,
    rewrite a trailing `Z` to `+00:00`, parse, default the naive case
    to the retailer timezone, convert to UTC; `none` on parse failure. -/
def parse_expiry (v : Option String) : Option UTCTime :=
  match v with
  | none => none
  | some s0 =>
    if s0 = "" then none
    else
      let s1 := stripList s0.data
      if s1 = [] then none
      else
        let s2 := if s1.getLast? = some 'Z' then s1.dropLast ++ ('+' :: '0' :: '0' :: ':' :: '0' :: '0' :: []) else s1
        (fromisoformat s2).map partsToUTC

/-! ### Loblaws payload model (external API response shape)

JSON dictionaries are modelled structurally; a field that may be
absent or `null` is an `Option`. A `dealBadge` value is `some b`
exactly when the upstream dict is present and truthy (a non-empty
dict); `none` covers an absent, `null` or empty dict, matching every
use site (`if badges:`, `or {}`, `bool(deal_badge)`). The JSON key
`type` (of a price block and of a deal badge) is modelled as
`priceType` / `badgeType`. -/

/-- The `badges.dealBadge` object of an offer. -/
structure DealBadge where
  text : Option String
  badgeType : Option String
  name : Option String
  expiryDate : Option String
deriving DecidableEq, Repr

/-- The `badges` object of an offer. -/
structure Badges where
  dealBadge : Option DealBadge
deriving DecidableEq, Repr

/-- The `price` / `wasPrice` object of an offer. -/
structure PriceBlock where
  value : Option Rat
  unit : Option String
  priceType : Option String
  expiryDate : Option String
deriving DecidableEq, Repr

/-- One commercial offer of the payload. -/
structure Offer where
  price : Option PriceBlock
  wasPrice : Option PriceBlock
  badges : Option Badges
  stockStatus : Option String
deriving DecidableEq, Repr

/-- One entry of `imageAssets`. -/
structure ImageAsset where
  largeUrl : Option String
  extraLargeUrl : Option String
  mediumUrl : Option String
deriving DecidableEq, Repr

/-- The product payload returned by the retailer API. An absent or
    `null` `offers` / `imageAssets` list is the empty list
    (`payload.get(...) or []` in the source). -/
structure Payload where
  name : Option String
  brand : Option String
  imageAssets : List ImageAsset
  offers : List Offer
deriving DecidableEq, Repr

/-- Truthy `dealBadge` of an offer:
    `(offer.get("badges") or {}).get("dealBadge")` then truthiness. -/
def offerDealBadge (o : Offer) : Option DealBadge :=
  o.badges.bind (fun b => b.dealBadge)

/-- Embedding of `_select_primary_offer` (loblaws.py:195): prefer the
    first offer with a truthy deal badge, else the first offer, and
    `none` when the list is empty. -/
def _select_primary_offer (p : Payload) : Option Offer :=
  match p.offers with
  | [] => none
  | first :: _ =>
    match p.offers.find? (fun o => (offerDealBadge o).isSome) with
    | some o => some o
    | none => some first

/-- Embedding of `_extract_image` (loblaws.py:207): the first truthy
    url among `largeUrl`, `extraLargeUrl`, `mediumUrl` of each asset. -/
def _extract_image (p : Payload) : Option String :=
  p.imageAssets.foldr
    (fun a acc => strOr (strOr (strOr a.largeUrl a.extraLargeUrl) a.mediumUrl) acc)
    none

/-- The values derived from a payload in `_apply_snapshots`
    (loblaws.py:235-250), exactly in the source's order of fallbacks. -/
structure Derived where
  current_price : Option Rat
  price_unit : Option String
  regular_price : Option Rat
  sale_text : Option String
  sale_type : Option String
  sale_expiry : Option UTCTime
  stock_status : Option String
  deal_badge : Option DealBadge
deriving DecidableEq, Repr

/-- Compute the derived snapshot values of a payload. -/
def derive (p : Payload) : Derived :=
  let offer := _select_primary_offer p
  let price_block := offer.bind (fun o => o.price)
  let was_price_block := offer.bind (fun o => o.wasPrice)
  let deal_badge := offer.bind offerDealBadge
  { current_price := price_block.bind (fun b => b.value)
    price_unit := price_block.bind (fun b => b.unit)
    regular_price := was_price_block.bind (fun b => b.value)
    sale_text := deal_badge.bind (fun b => b.text)
    sale_type := strOr (price_block.bind (fun b => b.priceType))
      (deal_badge.bind (fun b => b.badgeType))
    sale_expiry := parse_expiry (strOr (deal_badge.bind (fun b => b.expiryDate))
      (price_block.bind (fun b => b.expiryDate)))
    stock_status := offer.bind (fun o => o.stockStatus)
    deal_badge := deal_badge }

/-- The six sale-relevant fields named by the spec's signature
    invariant, as derived from a payload. -/
def saleFields (p : Payload) :
    Option String × Option String × Option UTCTime × Option Rat × Option Rat × Option String :=
  let d := derive p
  (d.sale_type, d.sale_text, d.sale_expiry, d.current_price, d.regular_price, d.stock_status)

/-- The pipe-joined signature built from the six sale-relevant fields
    (loblaws.py:252-260). -/
def mkSignature
    (f : Option String × Option String × Option UTCTime × Option Rat × Option Rat × Option String) :
    String :=
  String.intercalate "|"
    [ strOrDefault f.1 "NONE"
    , strOrDefault f.2.1 ""
    , (match f.2.2.1 with | some e => isoformatUTC e | none => "")
    , (match f.2.2.2.1 with | some q => format2 q | none => "")
    , (match f.2.2.2.2.1 with | some q => format2 q | none => "")
    , strOrDefault f.2.2.2.2.2 "" ]

/-- Signature of a payload. -/
def signatureOf (p : Payload) : String := mkSignature (saleFields p)

/-! ### Watch rows and snapshot application -/

/-- A `LoblawsWatch` row (models.py:43). Timestamps are abstract `Nat`
    ticks of the refresh run. -/
structure Watch where
  id : Nat
  url : String
  product_code : String
  store_id : String
  label : Option String
  name : Option String
  brand : Option String
  image_url : Option String
  current_price : Option Rat
  price_unit : Option String
  regular_price : Option Rat
  sale_text : Option String
  sale_expiry : Option UTCTime
  sale_type : Option String
  sale_badge_name : Option String
  stock_status : Option String
  last_checked_at : Option Nat
  last_change_at : Option Nat
  last_notified_at : Option Nat
  last_signature : Option String
deriving DecidableEq, Repr

/-- One dispatched notification (`send_notification` call). -/
structure Notification where
  title : String
  message : String
  link : Option String
deriving DecidableEq, Repr

/-- Build the notification body parts and message for a watch whose
    signature changed with an active deal (loblaws.py:283-302).
    `w` is the watch after its fields were updated from the payload. -/
def notificationFor (w : Watch) (d : Derived) : Notification :=
  let title := strOrDefault (strOr w.label w.name) w.product_code
  let parts : List String :=
    (if strTruthy d.sale_text then [d.sale_text.getD ""]
     else if strTruthy d.sale_type then [titleStr (d.sale_type.getD "")]
     else []) ++
    (match w.current_price with
     | some q => ["Now $" ++ format2 q ++ "/" ++ strOrDefault w.price_unit "ea"]
     | none => []) ++
    (match w.regular_price with
     | some q => ["Was $" ++ format2 q]
     | none => []) ++
    (match d.sale_expiry with
     | some e => ["Exp. " ++ localDateString e]
     | none => []) ++
    (if strTruthy d.stock_status then [titleStr (d.stock_status.getD "")] else [])
  { title := title
    message := if parts = [] then "Sale update" else String.intercalate " | " parts
    link := some w.url }

/-- Embedding of the per-watch body of `_apply_snapshots`
    (loblaws.py:222-306): set `last_checked_at` always; when the fetch
    produced a payload (`snapshot.ok`), update the cached fields,
    recompute the signature, stamp `last_change_at` on change, and
    dispatch one notification (stamping `last_notified_at`) exactly
    when the signature changed and the deal badge is truthy. Returns
    the updated row and the dispatched notifications. -/
def applySnapshot (now : Nat) (w0 : Watch) (pay : Option Payload) :
    Watch × List Notification :=
  let w := { w0 with last_checked_at := some now }
  match pay with
  | none => (w, [])
  | some p =>
    let d := derive p
    let signature := signatureOf p
    let changed := signature ≠ (w.last_signature.getD "")
    let w1 := { w with
      name := strOr p.name w.name
      brand := strOr p.brand w.brand
      image_url := strOr (_extract_image p) w.image_url
      current_price := d.current_price
      price_unit := d.price_unit
      regular_price := d.regular_price
      sale_text := d.sale_text
      sale_type := d.sale_type
      sale_badge_name := d.deal_badge.bind (fun b => b.name)
      sale_expiry := d.sale_expiry
      stock_status := d.stock_status
      last_signature := some signature
      last_change_at := if changed then some now else w.last_change_at }
    let deal_active := d.deal_badge.isSome
    if changed ∧ deal_active = true then
      ({ w1 with last_notified_at := some now }, [notificationFor w1 d])
    else
      (w1, [])

/-- Process one snapshot against the row store: `session.get` by
    primary key, apply, write back (loblaws.py:222-306, one loop
    iteration). A missing row is skipped. -/
def applyOne (now : Nat) (db : List Watch) (s : Nat × Option Payload) :
    List Watch × List Notification :=
  match db.find? (fun w => w.id = s.1) with
  | none => (db, [])
  | some w =>
    let r := applySnapshot now w s.2
    (db.map (fun x => if x.id = s.1 then r.1 else x), r.2)

/-- Embedding of `_apply_snapshots` (loblaws.py:217): fold the whole
    snapshot batch over the row store in one transaction scope,
    collecting every dispatched notification. -/
def _apply_snapshots (now : Nat) (db : List Watch)
    (snaps : List (Nat × Option Payload)) : List Watch × List Notification :=
  snaps.foldl
    (fun acc s =>
      let r := applyOne now acc.1 s
      (r.1, acc.2 ++ r.2))
    (db, [])

/-- An immutable refresh target (`WatchTarget`, loblaws.py:43). -/
structure WatchTarget where
  id : Nat
  product_code : String
  store_id : String
  url : String
  label : Option String
deriving DecidableEq, Repr

/-- Embedding of the fetch loop plus `_apply_snapshots` of
    `refresh_watch_ids` (loblaws.py:116-144): the upstream fetch is an
    oracle `fetch`, where `none` models a raised/caught fetch failure
    (the loop records the error snapshot and continues with the next
    target; it never aborts the batch). -/
def refreshBatch (now : Nat) (db : List Watch) (targets : List WatchTarget)
    (fetch : WatchTarget → Option Payload) : List Watch × List Notification :=
  _apply_snapshots now db (targets.map (fun t => (t.id, fetch t)))

/-- The database component of the batch fold on its own (the
    notifications accumulator does not influence it). -/
def applyDB (now : Nat) (db : List Watch) (snaps : List (Nat × Option Payload)) :
    List Watch :=
  snaps.foldl (fun d s => (applyOne now d s).1) db

/-! ### Product-code extraction (loblaws.py:63-72)

The source searches the URL with the case-insensitive regex
`/p/([^/?#]+)`, splits the captured group on `?`, strips it, rejects
an empty result and upper-cases it. -/

/-- Characters that terminate the captured segment (`[^/?#]`). -/
def sepChar (c : Char) : Bool := c = '/' ∨ c = '?' ∨ c = '#'

/-- Model of `re.search` with pattern `/p/([^/?#]+)` and `IGNORECASE`:
    scan left to right; at a position starting `/p/` (or `/P/`) whose
    following run of non-separator characters is non-empty, capture
    that run; otherwise advance one position. -/
def findPCode : List Char → Option (List Char)
  | '/' :: p :: '/' :: rest =>
    if p = 'p' ∨ p = 'P' then
      let seg := rest.takeWhile (fun c => ¬ sepChar c)
      if seg.isEmpty then findPCode (p :: '/' :: rest) else some seg
    else findPCode (p :: '/' :: rest)
  | _ :: rest => findPCode rest
  | [] => none

/-- Embedding of `extract_product_code` (loblaws.py:63): regex search,
    `split("?")[0]`, `strip()`, reject empty, `upper()`. `Except.error`
    models the raised `ValueError`. -/
def extract_product_code (url : String) : Except String String :=
  match findPCode url.data with
  | none => .error "未能从链接中提取商品编号，请确认链接中包含 /p/<code>"
  | some g =>
    let code := stripList (g.takeWhile (fun c => c ≠ '?'))
    if code.isEmpty then .error "解析到的商品编号为空"
    else .ok (String.mk (code.map Char.toUpper))

/-- Literal reading of the claim's precondition: the URL contains the
    exact substring `/p/` followed by at least one character. -/
def containsPSeg : List Char → Bool
  | '/' :: 'p' :: '/' :: _ :: _ => true
  | _ :: rest => containsPSeg rest
  | [] => false

/-- Amended precondition: the URL contains `/p/` case-insensitively,
    followed by at least one character. -/
def containsPSegCI : List Char → Bool
  | '/' :: p :: '/' :: c :: rest => (p = 'p' ∨ p = 'P') || containsPSegCI (p :: '/' :: c :: rest)
  | _ :: rest => containsPSegCI rest
  | [] => false

/-! ### Link listing (crud.py:15-36)

A `links` table is a list of rows; the `ORDER BY` chain
`click_count DESC, last_clicked_at DESC, order_index, id` is modelled
as sorting by the corresponding total order (`id` is the unique
primary key, so the chain is a total order and the result is the
unique sorted permutation). SQLite places NULL last under `DESC`. -/

/-- A `Link` row (models.py:13), restricted to the fields the listing
    query reads; `last_clicked_at` is an epoch timestamp. -/
structure Link where
  id : Int
  title : String
  url : String
  category : String
  order_index : Int
  is_active : Bool
  click_count : Int
  last_clicked_at : Option Int
deriving DecidableEq, Repr

/-- Strict `DESC NULLS LAST` precedence on a nullable column:
    `a` sorts strictly before `b`. -/
def descBefore : Option Int → Option Int → Bool
  | some x, some y => y < x
  | some _, none => true
  | none, some _ => false
  | none, none => false

/-- The `ORDER BY click_count DESC, last_clicked_at DESC, order_index,
    id` chain as a total order on rows. -/
def clicksLe (a b : Link) : Bool :=
  (b.click_count < a.click_count) ||
  (a.click_count == b.click_count &&
    (descBefore a.last_clicked_at b.last_clicked_at ||
     (a.last_clicked_at == b.last_clicked_at &&
       ((a.order_index < b.order_index) ||
        (a.order_index == b.order_index && a.id ≤ b.id)))))

/-- The default `ORDER BY order_index, id` chain. -/
def orderIndexLe (a b : Link) : Bool :=
  (a.order_index < b.order_index) ||
  (a.order_index == b.order_index && a.id ≤ b.id)

/-- Embedding of `list_links` (crud.py:15): filter inactive rows
    unless requested, order by the selected chain, apply the limit.
    `ORDER BY` over a total order returns the unique sorted
    permutation, modelled here by insertion sort. -/
def list_links (links : List Link) (include_inactive : Bool)
    (ordering : String) (limit : Option Nat) : List Link :=
  let l1 := if include_inactive then links else links.filter (fun l => l.is_active)
  let l2 := if ordering = "clicks" then l1.insertionSort (fun a b => clicksLe a b = true)
            else l1.insertionSort (fun a b => orderIndexLe a b = true)
  match limit with
  | some n => l2.take n
  | none => l2

/-! ### Mind-map documents (crud.py:176-192, routers/mindmaps.py:72-96)

The `MindMapDoc` model class and the `MindMapDocUpdate` schema are
referenced from `crud.py` / `routers/mindmaps.py` but their
declarations are not part of the sources; their fields are modelled
from those use sites and the spec. Modelled from the spec: a document
is a title, an opaque payload (kept in its serialized `data_json`
form; `json.dumps` of a supplied payload is its serialized string),
and a monotonically incrementing version counter (a positive
integer). -/

/-- A stored mind-map document. -/
structure MindMapDoc where
  title : String
  data_json : String
  version : Int
deriving DecidableEq, Repr

/-- The update request payload: optional new title, optional new
    (already-serialized) payload, optional expected version, and the
    force flag. -/
structure MindMapDocUpdate where
  title : Option String
  data : Option String
  expected_version : Option Int
  force : Bool
deriving DecidableEq, Repr

/-- Python `doc.version or 1` on an integer version column. -/
def versionOrOne (v : Int) : Int := if v = 0 then 1 else v

/-- Embedding of `crud.update_mindmap_doc` (crud.py:176): apply the
    supplied title and payload, and bump the version when anything was
    supplied or the write is forced. -/
def update_mindmap_doc (doc : MindMapDoc) (p : MindMapDocUpdate) (force : Bool) :
    MindMapDoc :=
  let d1 := match p.title with
    | some t => { doc with title := t }
    | none => doc
  let d2 := match p.data with
    | some s => { d1 with data_json := s }
    | none => d1
  if force || p.data.isSome || p.title.isSome then
    { d2 with version := versionOrOne d2.version + 1 }
  else d2

/-- Outcome of the update endpoint: a 409 conflict carrying the
    current stored document, or the updated document. -/
inductive UpdateOutcome where
  | conflict (current : MindMapDoc)
  | ok (doc : MindMapDoc)
deriving DecidableEq, Repr

/-- Embedding of the `update_doc` route (routers/mindmaps.py:72): when
    an expected version is supplied, mismatches the stored version and
    the write is not forced, return a conflict with the current
    document and leave the store untouched; otherwise write through
    `update_mindmap_doc`. The first component is the stored document
    after the request. -/
def update_doc (doc : MindMapDoc) (p : MindMapDocUpdate) :
    MindMapDoc × UpdateOutcome :=
  if p.expected_version.isSome ∧ p.expected_version ≠ some doc.version ∧ p.force = false then
    (doc, .conflict doc)
  else
    let d1 := update_mindmap_doc doc p p.force
    (d1, .ok d1)

/-! ### SHA-256 (hashlib.sha256, as used by auth.py)

Executable FIPS 180-4 SHA-256 over byte lists, with 32-bit words
represented as `Nat` reduced modulo `2 ^ 32`. -/

/-- The 32-bit modulus. -/
def w32 : Nat := 4294967296

/-- 32-bit right rotation. -/
def rotr (x n : Nat) : Nat := ((x >>> n) ||| (x <<< (32 - n))) % w32

/-- Bitwise complement within 32 bits. -/
def not32 (x : Nat) : Nat := x ^^^ (w32 - 1)

/-- SHA-256 round constants (FIPS 180-4, in decimal). -/
def shaK : List Nat :=
  [1116352408, 1899447441, 3049323471, 3921009573, 961987163,
   1508970993, 2453635748, 2870763221, 3624381080, 310598401,
   607225278, 1426881987, 1925078388, 2162078206, 2614888103,
   3248222580, 3835390401, 4022224774, 264347078, 604807628,
   770255983, 1249150122, 1555081692, 1996064986, 2554220882,
   2821834349, 2952996808, 3210313671, 3336571891, 3584528711,
   113926993, 338241895, 666307205, 773529912, 1294757372,
   1396182291, 1695183700, 1986661051, 2177026350, 2456956037,
   2730485921, 2820302411, 3259730800, 3345764771, 3516065817,
   3600352804, 4094571909, 275423344, 430227734, 506948616,
   659060556, 883997877, 958139571, 1322822218, 1537002063,
   1747873779, 1955562222, 2024104815, 2227730452, 2361852424,
   2428436474, 2756734187, 3204031479, 3329325298]

/-- SHA-256 initial hash value (FIPS 180-4, in decimal). -/
def shaH0 : List Nat :=
  [1779033703, 3144134277, 1013904242, 2773480762,
   1359893119, 2600822924, 528734635, 1541459225]

/-- Big-endian bytes of a value, `n` bytes wide. -/
def beBytes (n v : Nat) : List Nat :=
  (List.range n).map (fun i => v >>> (8 * (n - 1 - i)) % 256)

/-- SHA-256 message padding: append `0x80`, zeros to 56 mod 64, and
    the 64-bit big-endian bit length. -/
def shaPad (msg : List Nat) : List Nat :=
  msg ++ 128 :: List.replicate ((119 - msg.length % 64) % 64) 0 ++
    beBytes 8 (8 * msg.length)

/-- Pack big-endian groups of four bytes into 32-bit words. -/
def toWords : List Nat → List Nat
  | a :: b :: c :: d :: rest => (((a * 256 + b) * 256 + c) * 256 + d) :: toWords rest
  | _ => []

/-- Split the first `n` 64-byte chunks off a byte list. -/
def toBlocksN : Nat → List Nat → List (List Nat)
  | 0, _ => []
  | n + 1, l => l.take 64 :: toBlocksN n (l.drop 64)

/-- Split into 64-byte blocks (the padded length is a multiple of 64). -/
def toBlocks (l : List Nat) : List (List Nat) := toBlocksN (l.length / 64) l

/-- Small sigma-0 message-schedule function. -/
def ssig0 (x : Nat) : Nat := rotr x 7 ^^^ rotr x 18 ^^^ (x >>> 3)

/-- Small sigma-1 message-schedule function. -/
def ssig1 (x : Nat) : Nat := rotr x 17 ^^^ rotr x 19 ^^^ (x >>> 10)

/-- Big sigma-0 compression function. -/
def bsig0 (x : Nat) : Nat := rotr x 2 ^^^ rotr x 13 ^^^ rotr x 22

/-- Big sigma-1 compression function. -/
def bsig1 (x : Nat) : Nat := rotr x 6 ^^^ rotr x 11 ^^^ rotr x 25

/-- Extend the 16 block words to 64 schedule words; the accumulator is
    kept most-recent first. -/
def extendWords : Nat → List Nat → List Nat
  | 0, acc => acc.reverse
  | n + 1, acc =>
    let v := (ssig1 (acc.getD 1 0) + acc.getD 6 0 + ssig0 (acc.getD 14 0) +
      acc.getD 15 0) % w32
    extendWords n (v :: acc)

/-- One compression round; the state is `(a, b, c, d, e, f, g, h)` and
    the input pairs a round constant with a schedule word. -/
def shaRound (st : Nat × Nat × Nat × Nat × Nat × Nat × Nat × Nat) (kw : Nat × Nat) :
    Nat × Nat × Nat × Nat × Nat × Nat × Nat × Nat :=
  let (a, b, c, d, e, f, g, h) := st
  let ch := (e &&& f) ^^^ (not32 e &&& g)
  let maj := (a &&& b) ^^^ (a &&& c) ^^^ (b &&& c)
  let t1 := (h + bsig1 e + ch + kw.1 + kw.2) % w32
  let t2 := (bsig0 a + maj) % w32
  ((t1 + t2) % w32, a, b, c, (d + t1) % w32, e, f, g)

/-- Compress one 64-byte block into the running hash. -/
def shaCompress (h : List Nat) (block : List Nat) : List Nat :=
  let ws := extendWords 48 (toWords block).reverse
  let st0 := (h.getD 0 0, h.getD 1 0, h.getD 2 0, h.getD 3 0,
    h.getD 4 0, h.getD 5 0, h.getD 6 0, h.getD 7 0)
  let st := (shaK.zip ws).foldl shaRound st0
  [(h.getD 0 0 + st.1) % w32, (h.getD 1 0 + st.2.1) % w32,
   (h.getD 2 0 + st.2.2.1) % w32, (h.getD 3 0 + st.2.2.2.1) % w32,
   (h.getD 4 0 + st.2.2.2.2.1) % w32, (h.getD 5 0 + st.2.2.2.2.2.1) % w32,
   (h.getD 6 0 + st.2.2.2.2.2.2.1) % w32, (h.getD 7 0 + st.2.2.2.2.2.2.2) % w32]

/-- SHA-256 digest (32 bytes) of a byte list. -/
def sha256 (msg : List Nat) : List Nat :=
  ((toBlocks (shaPad msg)).foldl shaCompress shaH0).flatMap (beBytes 4)

/-- Lower-case hex rendering of a byte list (`hexdigest()`). -/
def hexOfBytes (bs : List Nat) : String :=
  let hexDigit := fun (n : Nat) =>
    if n < 10 then Char.ofNat (48 + n) else Char.ofNat (87 + n)
  String.mk (bs.flatMap (fun b => [hexDigit (b / 16), hexDigit (b % 16)]))

/-- UTF-8 encoding of a string as a byte list (`str.encode("utf-8")`). -/
def utf8Bytes (s : String) : List Nat :=
  s.data.flatMap (fun c =>
    let n := c.toNat
    if n < 128 then [n]
    else if n < 2048 then [192 + n / 64, 128 + n % 64]
    else if n < 65536 then [224 + n / 4096, 128 + n / 64 % 64, 128 + n % 64]
    else [240 + n / 262144, 128 + n / 4096 % 64, 128 + n / 64 % 64, 128 + n % 64])

/-- `hashlib.sha256(s.encode("utf-8")).hexdigest()`. -/
def sha256hexStr (s : String) : String := hexOfBytes (sha256 (utf8Bytes s))

/-! ### Shared-secret gate (auth.py:12-35) -/

/-- Whether every character of the string is a lower-case hex digit
    (`all(c in "0123456789abcdef" for c in token_hash)`). -/
def allHexLower (s : String) : Bool :=
  s.data.all (fun c => ('0' ≤ c ∧ c ≤ '9') ∨ ('a' ≤ c ∧ c ≤ 'f'))

/-- Embedding of `require_manage_auth` (auth.py:12). `expected_hash`
    is the configured environment hash (`none` or `""` meaning not
    configured); `token` is the first value presented via the query
    parameter or either header (`none` when absent). `true` means the
    request is authorized, `false` models the raised 401. -/
def require_manage_auth (expected_hash : Option String) (token : Option String) : Bool :=
  match expected_hash with
  | none => true
  | some eh =>
    if eh = "" then true
    else
      match token with
      | none => false
      | some pw =>
        if pw = "" then false
        else
          let th0 := lowerStr (stripStr pw)
          let th := if th0.length = 64 ∧ allHexLower th0 then th0 else sha256hexStr pw
          th == lowerStr eh

/-- The claim's acceptance predicate, written from its words: the
    token is the raw secret (its SHA-256 hex digest equals the
    configured hash) or a pre-hashed 64-hex-character value equal,
    case-insensitively, to the configured hash. -/
def claimAuthorized (eh token : String) : Bool :=
  (sha256hexStr token == eh) ||
  (token.length = 64 && allHexLower (lowerStr token) && lowerStr token == lowerStr eh)

/-- The amended acceptance predicate, written from the amended claim:
    a token that after trimming and lowercasing reads as 64 hex
    characters is only compared literally (the pre-hashed
    interpretation takes precedence and the hashing path is skipped);
    any other token is hashed and compared; both comparisons are
    against the lowercased configured hash. -/
def amendedAuthorized (eh tok : String) : Bool :=
  let t := lowerStr (stripStr tok)
  if t.length = 64 ∧ allHexLower t then t == lowerStr eh
  else sha256hexStr tok == lowerStr eh

/-! ### Concrete fixtures used by witnesses and counterexamples -/

/-- Offer carrying only a deal badge with the given type and text. -/
def badgeOffer (bt tx : Option String) : Offer :=
  { price := none, wasPrice := none
    badges := some { dealBadge := some { text := tx, badgeType := bt, name := none, expiryDate := none } }
    stockStatus := none }

/-- Payload whose only offer has deal-badge type `A|` and text `B`. -/
def payloadA : Payload := { name := none, brand := none, imageAssets := [], offers := [badgeOffer (some "A|") (some "B")] }

/-- Payload whose only offer has deal-badge type `A` and text `|B`. -/
def payloadB : Payload := { name := none, brand := none, imageAssets := [], offers := [badgeOffer (some "A") (some "|B")] }

/-- Payload with an empty offer list. -/
def payloadEmpty : Payload := { name := none, brand := none, imageAssets := [], offers := [] }

/-- A watch row with a cached price and no history. -/
def watch0 : Watch :=
  { id := 1, url := "https://www.loblaws.ca/x/p/A1", product_code := "A1"
    store_id := "1032", label := none, name := none, brand := none
    image_url := none, current_price := some 5, price_unit := none
    regular_price := none, sale_text := none, sale_expiry := none
    sale_type := none, sale_badge_name := none, stock_status := none
    last_checked_at := none, last_change_at := none, last_notified_at := none
    last_signature := none }

/-- A second watch row, distinct id. -/
def watch1 : Watch := { watch0 with id := 2, product_code := "B2", url := "https://www.loblaws.ca/x/p/B2" }

/-- Target matching `watch0`. -/
def target0 : WatchTarget :=
  { id := 1, product_code := "A1", store_id := "1032"
    url := "https://www.loblaws.ca/x/p/A1", label := none }

/-- Target matching `watch1`. -/
def target1 : WatchTarget :=
  { id := 2, product_code := "B2", store_id := "1032"
    url := "https://www.loblaws.ca/x/p/B2", label := none }

/-- A fetch oracle that fails on target id 1 and succeeds elsewhere. -/
def fetchW : WatchTarget → Option Payload :=
  fun t => if t.id = 1 then none else some payloadA

/-- A 64-hex-character shared secret. -/
def secret64 : String :=
  "0123456789abcdef0123456789abcdef0123456789abcdef0123456789abcdef"

/-- Concrete links of the spec's ordering example: `A` has 10 clicks,
    `B` has 10 clicks with a more recent click, `C` has 5 clicks. -/
def linkA : Link :=
  { id := 1, title := "A", url := "https://a.example", category := "work"
    order_index := 0, is_active := true, click_count := 10, last_clicked_at := some 100 }

/-- Link `B` of the ordering example. -/
def linkB : Link :=
  { id := 2, title := "B", url := "https://b.example", category := "work"
    order_index := 0, is_active := true, click_count := 10, last_clicked_at := some 200 }

/-- Link `C` of the ordering example. -/
def linkC : Link :=
  { id := 3, title := "C", url := "https://c.example", category := "work"
    order_index := 0, is_active := true, click_count := 5, last_clicked_at := some 300 }

/-- A concrete stored mind-map document. -/
def doc0 : MindMapDoc := { title := "t", data_json := "\x7b\x7d", version := 3 }

/-- `payloadA` with a different product name (the name is not one of
    the six sale-relevant fields). -/
def payloadA2 : Payload := { payloadA with name := some "N" }

/-! ## Supporting lemmas -/

/-- A URL without a case-insensitive `/p/` marker followed by a
    character yields no regex match. -/
theorem findPCode_eq_none (l : List Char) (h : containsPSegCI l = false) :
    findPCode l = none := by
  induction l using findPCode.induct with
  | case1 p rest hp seg hseg ih =>
    cases rest with
    | nil => simp [findPCode, hp]
    | cons c rest2 => simp [containsPSegCI, hp] at h
  | case2 p rest hp seg hseg =>
    cases rest with
    | nil => exact absurd rfl hseg
    | cons c rest2 => simp [containsPSegCI, hp] at h
  | case3 p rest hp ih =>
    have h2 : containsPSegCI (p :: '/' :: rest) = false := by
      cases rest with
      | nil => simp [containsPSegCI]
      | cons c rest2 => simpa [containsPSegCI, hp] using h
    simp only [findPCode, hp, if_false, if_neg, not_false_eq_true]
    exact ih h2
  | case4 x rest hx ih =>
    rw [findPCode.eq_2 x rest hx]
    apply ih
    rw [containsPSegCI.eq_2 x rest (fun p c r1 hxx hr => hx p (c :: r1) hxx hr)] at h
    exact h
  | case5 => simp [findPCode]

/-- The applied row keeps its primary key. -/
theorem applySnapshot_id (now : Nat) (w : Watch) (pay : Option Payload) :
    (applySnapshot now w pay).1.id = w.id := by
  cases pay with
  | none => rfl
  | some p =>
    by_cases h : (signatureOf p ≠ w.last_signature.getD "" ∧ (derive p).deal_badge.isSome = true) <;>
      simp [applySnapshot, h]

/-- Every processed row gets its last-checked timestamp set. -/
theorem applySnapshot_checked (now : Nat) (w : Watch) (pay : Option Payload) :
    (applySnapshot now w pay).1.last_checked_at = some now := by
  cases pay with
  | none => rfl
  | some p =>
    by_cases h : (signatureOf p ≠ w.last_signature.getD "" ∧ (derive p).deal_badge.isSome = true) <;>
      simp [applySnapshot, h]

/-- A failed fetch updates only the last-checked timestamp and
    dispatches nothing. -/
theorem applySnapshot_failed (now : Nat) (w : Watch) :
    applySnapshot now w none = ({ w with last_checked_at := some now }, []) := rfl

/-- Replacing the row with key `i` leaves lookups of a different key
    `j` unchanged. -/
theorem map_find?_untouched (db : List Watch) (i j : Nat) (wnew : Watch)
    (h1 : wnew.id ≠ j) (h2 : j ≠ i) :
    (db.map (fun x => if x.id = i then wnew else x)).find? (fun x => x.id = j) =
      db.find? (fun x => x.id = j) := by
  induction db with
  | nil => rfl
  | cons x rest ih =>
    simp only [List.map_cons]
    by_cases hx : x.id = i
    · rw [if_pos hx]
      rw [List.find?_cons_of_neg _ (by simp [h1]),
        List.find?_cons_of_neg _ (by simp [hx, Ne.symm h2]), ih]
    · rw [if_neg hx]
      by_cases hj : x.id = j
      · rw [List.find?_cons_of_pos _ (by simp [hj]),
          List.find?_cons_of_pos _ (by simp [hj])]
      · rw [List.find?_cons_of_neg _ (by simp [hj]),
          List.find?_cons_of_neg _ (by simp [hj]), ih]

/-- Replacing the row with key `i` makes lookups of `i` return the
    replacement. -/
theorem map_find?_touched (db : List Watch) (i : Nat) (wnew w : Watch)
    (hid : wnew.id = i) (hf : db.find? (fun x => x.id = i) = some w) :
    (db.map (fun x => if x.id = i then wnew else x)).find? (fun x => x.id = i) =
      some wnew := by
  induction db with
  | nil => simp at hf
  | cons x rest ih =>
    simp only [List.map_cons]
    by_cases hx : x.id = i
    · rw [if_pos hx, List.find?_cons_of_pos _ (by simp [hid])]
    · rw [List.find?_cons_of_neg _ (by simp [hx])] at hf
      rw [if_neg hx, List.find?_cons_of_neg _ (by simp [hx])]
      exact ih hf

/-- The notification accumulator does not influence the database
    component of the batch fold. -/
theorem apply_snapshots_fst (now : Nat) (snaps : List (Nat × Option Payload)) :
    ∀ (db : List Watch) (ns : List Notification),
      (snaps.foldl
        (fun acc s =>
          let r := applyOne now acc.1 s
          (r.1, acc.2 ++ r.2)) (db, ns)).1 = applyDB now db snaps := by
  induction snaps with
  | nil => intro db ns; rfl
  | cons s rest ih =>
    intro db ns
    simp only [List.foldl_cons, applyDB] at ih ⊢
    exact ih (applyOne now db s).1 (ns ++ (applyOne now db s).2)

/-- The database component of `_apply_snapshots` is `applyDB`. -/
theorem apply_snapshots_db (now : Nat) (db : List Watch)
    (snaps : List (Nat × Option Payload)) :
    (_apply_snapshots now db snaps).1 = applyDB now db snaps :=
  apply_snapshots_fst now snaps db []

/-- One batch step leaves rows with other keys untouched. -/
theorem applyOne_find?_untouched (now : Nat) (db : List Watch)
    (s : Nat × Option Payload) (j : Nat) (hj : j ≠ s.1) :
    ((applyOne now db s).1).find? (fun x => x.id = j) = db.find? (fun x => x.id = j) := by
  unfold applyOne
  cases hf : db.find? (fun w => w.id = s.1) with
  | none => rfl
  | some w =>
    have hw : w.id = s.1 := by
      have := List.find?_some hf
      simpa using this
    have hnew : (applySnapshot now w s.2).1.id ≠ j := by
      rw [applySnapshot_id, hw]; exact fun h => hj h.symm
    exact map_find?_untouched db s.1 j _ hnew hj

/-- One batch step writes the applied row back under its key. -/
theorem applyOne_find?_touched (now : Nat) (db : List Watch)
    (s : Nat × Option Payload) (w : Watch)
    (hf : db.find? (fun x => x.id = s.1) = some w) :
    ((applyOne now db s).1).find? (fun x => x.id = s.1) =
      some (applySnapshot now w s.2).1 := by
  unfold applyOne
  rw [hf]
  have hw : w.id = s.1 := by
    have := List.find?_some hf
    simpa using this
  exact map_find?_touched db s.1 _ w (by rw [applySnapshot_id, hw]) hf

/-- Rows whose key appears in no snapshot survive the batch
    unchanged. -/
theorem applyDB_untouched (now : Nat) (snaps : List (Nat × Option Payload)) :
    ∀ (db : List Watch) (j : Nat), j ∉ snaps.map Prod.fst →
      (applyDB now db snaps).find? (fun x => x.id = j) = db.find? (fun x => x.id = j) := by
  induction snaps with
  | nil => intro db j _; rfl
  | cons s rest ih =>
    intro db j hj
    simp only [List.map_cons, List.mem_cons, not_or] at hj
    simp only [applyDB, List.foldl_cons]
    rw [show (rest.foldl (fun d s => (applyOne now d s).1) (applyOne now db s).1) =
        applyDB now (applyOne now db s).1 rest from rfl]
    rw [ih (applyOne now db s).1 j hj.2]
    exact applyOne_find?_untouched now db s j hj.1

/-- After the whole batch, the row of a snapshot key holds exactly the
    applied version of the row it held before (no other snapshot of
    the batch interferes), for pairwise-distinct snapshot keys. -/
theorem applyDB_find (now : Nat) (snaps : List (Nat × Option Payload)) :
    ∀ (db : List Watch) (i : Nat) (pay : Option Payload) (w : Watch),
      (snaps.map Prod.fst).Nodup → (i, pay) ∈ snaps →
      db.find? (fun x => x.id = i) = some w →
      (applyDB now db snaps).find? (fun x => x.id = i) =
        some (applySnapshot now w pay).1 := by
  induction snaps with
  | nil => intro db i pay w _ hm; simp at hm
  | cons s rest ih =>
    intro db i pay w hnd hm hf
    simp only [List.map_cons, List.nodup_cons] at hnd
    simp only [applyDB, List.foldl_cons]
    rw [show (rest.foldl (fun d s => (applyOne now d s).1) (applyOne now db s).1) =
        applyDB now (applyOne now db s).1 rest from rfl]
    rcases List.mem_cons.mp hm with heq | hmem
    · have hi : i = s.1 := by rw [← heq]
      have hpay : pay = s.2 := by rw [← heq]
      subst hi; subst hpay
      rw [applyDB_untouched now rest _ s.1 hnd.1]
      exact applyOne_find?_touched now db s w hf
    · have hi : i ≠ s.1 := by
        intro h
        exact hnd.1 (h ▸ List.mem_map_of_mem Prod.fst hmem)
      have hstep : ((applyOne now db s).1).find? (fun x => x.id = i) = some w := by
        rw [applyOne_find?_untouched now db s i hi]; exact hf
      exact ih (applyOne now db s).1 i pay w hnd.2 hmem hstep

/-- Transitivity of the clicks `ORDER BY` chain. -/
theorem clicksLe_trans (a b c : Link) (h1 : clicksLe a b = true) (h2 : clicksLe b c = true) :
    clicksLe a c = true := by
  rcases ha : a.last_clicked_at with _ | x <;> rcases hb : b.last_clicked_at with _ | y <;>
    rcases hc : c.last_clicked_at with _ | z <;>
    simp only [clicksLe, descBefore, ha, hb, hc, Bool.or_eq_true, Bool.and_eq_true,
      decide_eq_true_eq, beq_iff_eq, Option.some.injEq, reduceCtorEq,
      false_or, or_false, true_and, and_true, false_and, and_false] at h1 h2 ⊢ <;>
  omega

/-- Totality of the clicks `ORDER BY` chain. -/
theorem clicksLe_total (a b : Link) : clicksLe a b = true ∨ clicksLe b a = true := by
  rcases ha : a.last_clicked_at with _ | x <;> rcases hb : b.last_clicked_at with _ | y <;>
    simp only [clicksLe, descBefore, ha, hb, Bool.or_eq_true, Bool.and_eq_true,
      decide_eq_true_eq, beq_iff_eq, Option.some.injEq, reduceCtorEq,
      false_or, or_false, true_and, and_true, false_and, and_false] <;>
  omega

/-! ## Claims -/

/-- C1 (counterexample): two payloads whose deal badges are
    `type = "A|", text = "B"` and `type = "A", text = "|B"` differ in
    both the sale-type and sale-text fields, yet both produce the
    signature `"A||B||||"` — the pipe join does not escape a `|`
    inside a field — refuting "for every pair differing in at least
    one of them the signature differs". -/
theorem C1_counterexample :
    saleFields payloadA ≠ saleFields payloadB ∧
    signatureOf payloadA = signatureOf payloadB :=
  ⟨by decide, by decide⟩

/-- C1 (amended): the signature is a function of the six sale-relevant
    fields — two payloads agreeing on sale type, sale text, sale
    expiry, current price, regular price and stock status always get
    equal signatures (equivalently, a signature change implies at
    least one of the six fields changed) — but the converse fails, as
    distinct field values can collide on the same signature. -/
theorem C1_signature_function (p q : Payload) (h : saleFields p = saleFields q) :
    signatureOf p = signatureOf q :=
  congrArg mkSignature h

/-- C1 (witness): payloads differing only in the product name agree on
    the six fields and hence on the signature. -/
theorem C1_witness : signatureOf payloadA = signatureOf payloadA2 :=
  C1_signature_function payloadA payloadA2 (by decide)

/-- C2: in the per-watch apply step, a signature change with a truthy
    deal badge on the selected offer dispatches exactly one
    notification and stamps `last_notified_at`; a signature change
    without a badge, or an unchanged signature, dispatches none and
    leaves `last_notified_at` unchanged. -/
theorem C2_notification_policy (now : Nat) (w : Watch) (p : Payload) :
    (signatureOf p ≠ w.last_signature.getD "" ∧ (derive p).deal_badge.isSome = true →
      (applySnapshot now w (some p)).2.length = 1 ∧
      (applySnapshot now w (some p)).1.last_notified_at = some now) ∧
    (signatureOf p ≠ w.last_signature.getD "" ∧ (derive p).deal_badge.isSome = false →
      (applySnapshot now w (some p)).2 = [] ∧
      (applySnapshot now w (some p)).1.last_notified_at = w.last_notified_at) ∧
    (signatureOf p = w.last_signature.getD "" →
      (applySnapshot now w (some p)).2 = [] ∧
      (applySnapshot now w (some p)).1.last_notified_at = w.last_notified_at) := by
  refine ⟨fun ⟨h1, h2⟩ => ?_, fun ⟨h1, h2⟩ => ?_, fun h1 => ?_⟩
  · simp [applySnapshot, h1, h2]
  · simp [applySnapshot, h1, h2]
  · simp [applySnapshot, h1]

/-- C2 (witness): a fresh watch (empty stored signature) against a
    payload with a deal badge gets exactly one notification. -/
theorem C2_witness :
    (applySnapshot 7 watch0 (some payloadA)).2.length = 1 ∧
    (applySnapshot 7 watch0 (some payloadA)).1.last_notified_at = some 7 :=
  (C2_notification_policy 7 watch0 payloadA).1 ⟨by decide, by decide⟩

/-- C3: applying the same payload twice leaves the stored signature,
    the last-changed timestamp and the last-notified timestamp of the
    second result equal to those of the first (idempotence; only
    `last_checked_at` advances). -/
theorem C3_refresh_idempotent (t1 t2 : Nat) (w : Watch) (p : Payload) :
    (applySnapshot t2 (applySnapshot t1 w (some p)).1 (some p)).1.last_signature =
      (applySnapshot t1 w (some p)).1.last_signature ∧
    (applySnapshot t2 (applySnapshot t1 w (some p)).1 (some p)).1.last_change_at =
      (applySnapshot t1 w (some p)).1.last_change_at ∧
    (applySnapshot t2 (applySnapshot t1 w (some p)).1 (some p)).1.last_notified_at =
      (applySnapshot t1 w (some p)).1.last_notified_at := by
  have hsig : (applySnapshot t1 w (some p)).1.last_signature = some (signatureOf p) := by
    by_cases h : (signatureOf p ≠ w.last_signature.getD "" ∧ (derive p).deal_badge.isSome = true) <;>
      simp [applySnapshot, h]
  by_cases h : (signatureOf p ≠ w.last_signature.getD "" ∧ (derive p).deal_badge.isSome = true) <;>
    simp [applySnapshot, h, hsig]

/-- C4 (counterexample): a successfully fetched payload with an empty
    offer list does not leave the other stored fields unchanged — it
    clears the cached price: `watch0` stores `current_price = 5`, and
    applying `payloadEmpty` sets it to `none`. -/
theorem C4_counterexample :
    watch0.current_price = some 5 ∧
    (applySnapshot 1 watch0 (some payloadEmpty)).1.current_price = none :=
  ⟨rfl, by decide⟩

/-- C4 (amended): on a payload with no offers the apply step updates
    `last_checked_at` and dispatches nothing, but (rather than leaving
    the other fields unchanged) it clears every pricing/sale field to
    `none`, stores the empty-field signature `"NONE|||||"` (stamping
    `last_change_at` whenever that differs from the stored signature),
    and preserves name, brand and image only via the usual truthy
    fallbacks. -/
theorem C4_empty_offers (now : Nat) (w : Watch) (p : Payload) (h : p.offers = []) :
    (applySnapshot now w (some p)).2 = [] ∧
    (applySnapshot now w (some p)).1.last_checked_at = some now ∧
    (applySnapshot now w (some p)).1.current_price = none ∧
    (applySnapshot now w (some p)).1.regular_price = none ∧
    (applySnapshot now w (some p)).1.price_unit = none ∧
    (applySnapshot now w (some p)).1.sale_text = none ∧
    (applySnapshot now w (some p)).1.sale_type = none ∧
    (applySnapshot now w (some p)).1.sale_expiry = none ∧
    (applySnapshot now w (some p)).1.stock_status = none ∧
    (applySnapshot now w (some p)).1.sale_badge_name = none ∧
    (applySnapshot now w (some p)).1.last_signature = some "NONE|||||" ∧
    (applySnapshot now w (some p)).1.name = strOr p.name w.name ∧
    (applySnapshot now w (some p)).1.brand = strOr p.brand w.brand ∧
    (applySnapshot now w (some p)).1.image_url = strOr (_extract_image p) w.image_url ∧
    (applySnapshot now w (some p)).1.last_change_at =
      (if "NONE|||||" ≠ w.last_signature.getD "" then some now else w.last_change_at) ∧
    (applySnapshot now w (some p)).1.last_notified_at = w.last_notified_at := by
  have hd : derive p = ⟨none, none, none, none, none, none, none, none⟩ := by
    simp [derive, _select_primary_offer, h, strOr, strTruthy, parse_expiry]
  have hsig : signatureOf p = "NONE|||||" := by
    simp [signatureOf, saleFields, hd, mkSignature, strOrDefault]
    rfl
  simp [applySnapshot, hd, hsig]

/-- C4 (witness): the amended theorem applied at the empty payload. -/
theorem C4_witness :
    (applySnapshot 1 watch0 (some payloadEmpty)).2 = [] ∧
    (applySnapshot 1 watch0 (some payloadEmpty)).1.last_signature = some "NONE|||||" :=
  ⟨(C4_empty_offers 1 watch0 payloadEmpty rfl).1,
   (C4_empty_offers 1 watch0 payloadEmpty rfl).2.2.2.2.2.2.2.2.2.2.1⟩

/-- C5: in a refresh batch with pairwise-distinct target ids, every
    target's row is processed — after the whole batch it holds exactly
    the applied version of its previous row, with `last_checked_at`
    stamped — regardless of other targets failing; and a target whose
    fetch failed has its row changed only in `last_checked_at`, every
    other field (signature and the last-changed / last-notified
    timestamps included) left unchanged. -/
theorem C5_failed_target_frame (now : Nat) (db : List Watch)
    (targets : List WatchTarget) (fetch : WatchTarget → Option Payload)
    (ht : (targets.map WatchTarget.id).Nodup) :
    ∀ t ∈ targets, ∀ w : Watch, db.find? (fun x => x.id = t.id) = some w →
      ((refreshBatch now db targets fetch).1.find? (fun x => x.id = t.id) =
        some (applySnapshot now w (fetch t)).1) ∧
      (applySnapshot now w (fetch t)).1.last_checked_at = some now ∧
      (fetch t = none →
        (applySnapshot now w (fetch t)).1 = { w with last_checked_at := some now } ∧
        (applySnapshot now w (fetch t)).2 = []) := by
  intro t htm w hw
  have hsn : ((targets.map (fun t => (t.id, fetch t))).map Prod.fst).Nodup := by
    rw [List.map_map]
    exact ht
  have hmem : (t.id, fetch t) ∈ targets.map (fun t => (t.id, fetch t)) :=
    List.mem_map_of_mem _ htm
  refine ⟨?_, applySnapshot_checked now w (fetch t), fun hn => by rw [hn]; exact ⟨rfl, rfl⟩⟩
  show (_apply_snapshots now db (targets.map (fun t => (t.id, fetch t)))).1.find?
      (fun x => x.id = t.id) = some (applySnapshot now w (fetch t)).1
  rw [apply_snapshots_db]
  exact applyDB_find now (targets.map (fun t => (t.id, fetch t))) db t.id (fetch t) w hsn hmem hw

/-- C5 (witness): a two-target batch in which target 1 fails: its row
    afterwards is the old row with only `last_checked_at` stamped. -/
theorem C5_witness :
    ((refreshBatch 3 [watch0, watch1] [target0, target1] fetchW).1.find?
        (fun x => x.id = target0.id) = some (applySnapshot 3 watch0 (fetchW target0)).1) ∧
    (applySnapshot 3 watch0 (fetchW target0)).1 = { watch0 with last_checked_at := some 3 } :=
  ⟨((C5_failed_target_frame 3 [watch0, watch1] [target0, target1] fetchW (by decide))
      target0 (List.mem_cons_self _ _) watch0 (by decide)).1,
   (((C5_failed_target_frame 3 [watch0, watch1] [target0, target1] fetchW (by decide))
      target0 (List.mem_cons_self _ _) watch0 (by decide)).2.2 (by decide)).1⟩

/-- C8: listing active links with `ordering = "clicks"` returns the
    active rows sorted by click count descending, then most-recent
    click descending (nulls last), then order index ascending, then id
    ascending; on the spec's example `A` (10 clicks), `B` (10 clicks,
    more recent) and `C` (5 clicks) the order is `B, A, C`. -/
theorem C8_clicks_ordering :
    (∀ links : List Link,
      (list_links links false "clicks" none).Pairwise (fun a b => clicksLe a b = true) ∧
      (list_links links false "clicks" none).Perm (links.filter (fun l => l.is_active))) ∧
    (list_links [linkA, linkB, linkC] false "clicks" none).map Link.id = [2, 1, 3] := by
  refine ⟨fun links => ⟨?_, ?_⟩, by decide⟩
  · have ht : IsTrans Link (fun a b => clicksLe a b = true) := ⟨clicksLe_trans⟩
    have htot : IsTotal Link (fun a b => clicksLe a b = true) := ⟨clicksLe_total⟩
    simpa [list_links] using
      @List.sorted_insertionSort Link (fun a b => clicksLe a b = true) _ htot ht
        (links.filter (fun l => l.is_active))
  · simpa [list_links] using
      List.perm_insertionSort (fun a b => clicksLe a b = true)
        (links.filter (fun l => l.is_active))

/-- C6 (counterexample): the URL `/P/x9` contains no `/p/` segment,
    yet `extract_product_code` succeeds and returns `X9`, because the
    source regex is compiled with `re.IGNORECASE`; this refutes the
    claim's "every URL not containing a `/p/` segment followed by at
    least one character fails" as literally stated. -/
theorem C6_counterexample :
    containsPSeg (String.data "/P/x9") = false ∧
    extract_product_code "/P/x9" = Except.ok "X9" :=
  ⟨by decide, rfl⟩

/-- C6 (amended): for every URL that does not contain a
    case-insensitive `/p/` marker followed by at least one character,
    extraction fails with a validation error; `/p/ABC123?x=1` yields
    exactly `ABC123`. -/
theorem C6_extract_product_code :
    (∀ url : String, containsPSegCI url.data = false →
      ∃ e, extract_product_code url = Except.error e) ∧
    extract_product_code "/p/ABC123?x=1" = Except.ok "ABC123" := by
  refine ⟨fun url h => ?_, rfl⟩
  unfold extract_product_code
  rw [findPCode_eq_none url.data h]
  exact ⟨_, rfl⟩

/-- C6 (witness): the amended theorem applied to a marker-free URL. -/
theorem C6_witness :
    ∃ e, extract_product_code "https://example.com/product" = Except.error e :=
  C6_extract_product_code.1 "https://example.com/product" (by decide)

set_option maxRecDepth 8000 in
/-- C9 (counterexample): configure the hash as the SHA-256 digest of a
    secret that is itself a 64-hex-character string; the claim's
    predicate accepts the raw secret (its digest equals the configured
    hash), but the gate rejects it, because a 64-hex token is only
    ever interpreted as pre-hashed and never hashed itself. -/
theorem C9_counterexample :
    claimAuthorized (sha256hexStr secret64) secret64 = true ∧
    require_manage_auth (some (sha256hexStr secret64)) (some secret64) = false :=
  ⟨by decide, by decide⟩

/-- C9 (amended): with a configured hash and a presented non-empty
    token, the gate authorizes exactly per `amendedAuthorized` (the
    64-hex pre-hashed branch takes precedence over hashing); with no
    hash configured, every request is authorized, token or not. -/
theorem C9_auth_gate :
    (∀ eh tok : String, eh ≠ "" → tok ≠ "" →
      require_manage_auth (some eh) (some tok) = amendedAuthorized eh tok) ∧
    (∀ t : Option String, require_manage_auth none t = true) := by
  refine ⟨fun eh tok h1 h2 => ?_, fun t => rfl⟩
  by_cases hc : (lowerStr (stripStr tok)).length = 64 ∧ allHexLower (lowerStr (stripStr tok)) <;>
    simp [require_manage_auth, amendedAuthorized, h1, h2, hc]

/-- C9 (witness): the amended characterization at a short raw secret. -/
theorem C9_witness :
    require_manage_auth (some "ab") (some "pw") = amendedAuthorized "ab" "pw" :=
  C9_auth_gate.1 "ab" "pw" (by decide) (by decide)

/-- C7: an update supplying a mismatched expected version is rejected
    with a conflict carrying the current stored document and leaves it
    unchanged when not forced, and succeeds with the version bumped by
    exactly one when forced. -/
theorem C7_version_conflict (doc : MindMapDoc) (p : MindMapDocUpdate) (ev : Int)
    (h1 : p.expected_version = some ev) (h2 : ev ≠ doc.version)
    (h3 : 1 ≤ doc.version) :
    (p.force = false → update_doc doc p = (doc, UpdateOutcome.conflict doc)) ∧
    (p.force = true →
      update_doc doc p =
        (update_mindmap_doc doc p true, UpdateOutcome.ok (update_mindmap_doc doc p true)) ∧
      (update_mindmap_doc doc p true).version = doc.version + 1) := by
  have hv : ∀ d1 : MindMapDoc, d1.version = doc.version →
      (update_mindmap_doc doc p true).version = doc.version + 1 := by
    intro d1 _
    cases ht : p.title <;> cases hd : p.data <;>
      simp [update_mindmap_doc, ht, hd, versionOrOne] <;> omega
  constructor
  · intro hf
    simp [update_doc, h1, hf, h2]
  · intro hf
    refine ⟨by simp [update_doc, h1, hf], hv doc rfl⟩

/-- C7 (witness): a stale expected version against `doc0` (version 3)
    conflicts when not forced and bumps the version to 4 when forced. -/
theorem C7_witness :
    update_doc doc0 { title := some "u", data := none, expected_version := some 1, force := false } =
      (doc0, UpdateOutcome.conflict doc0) ∧
    (update_mindmap_doc doc0 { title := some "u", data := none, expected_version := some 1, force := true } true).version =
      doc0.version + 1 :=
  ⟨(C7_version_conflict doc0 _ 1 rfl (by decide) (by decide)).1 rfl,
   ((C7_version_conflict doc0 _ 1 rfl (by decide) (by decide)).2 rfl).2⟩

/-- C10: an update omitting `expected_version` never conflicts — the
    write proceeds for any `force` and any stored version — and when
    neither title nor payload is supplied and the write is not forced,
    the stored document (its version included) is unchanged. -/
theorem C10_omitted_expected_version (doc : MindMapDoc) (p : MindMapDocUpdate)
    (h : p.expected_version = none) :
    update_doc doc p =
      (update_mindmap_doc doc p p.force, UpdateOutcome.ok (update_mindmap_doc doc p p.force)) ∧
    (p.title = none → p.data = none → p.force = false →
      update_mindmap_doc doc p p.force = doc) := by
  constructor
  · simp [update_doc, h]
  · intro ht hd hf
    simp [update_mindmap_doc, ht, hd, hf]

/-- C10 (witness): a no-op unforced update without an expected version
    succeeds and leaves `doc0` unchanged. -/
theorem C10_witness :
    update_doc doc0 { title := none, data := none, expected_version := none, force := false } =
      (update_mindmap_doc doc0 { title := none, data := none, expected_version := none, force := false } false,
       UpdateOutcome.ok (update_mindmap_doc doc0 { title := none, data := none, expected_version := none, force := false } false)) ∧
    update_mindmap_doc doc0 { title := none, data := none, expected_version := none, force := false } false = doc0 :=
  ⟨(C10_omitted_expected_version doc0 _ rfl).1,
   (C10_omitted_expected_version doc0 _ rfl).2 rfl rfl rfl⟩

end FengDock
